import Mathlib

/-!
Verification development for the invoice-harvesting engine
(`src/app/utils/fakturator.py`).  The Python source is shallowly embedded:
pure fragments become Lean functions, the stateful order-processing loop
becomes explicit state passing over a `RunState`, browser / filesystem /
network effects are supplied by explicit environment records, and fallible
operations return `Option`.
-/

set_option maxRecDepth 10000

/-! ## Calendar arithmetic (embedding of Python `datetime`)

A Python `datetime` is modelled as a day number (days since 1970-01-01)
plus the microsecond of the day.  `weekday` follows Python's convention
(Monday = 0 .. Sunday = 6); day 0 (1970-01-01) was a Thursday. -/

/-- A Python `datetime` value: day number since the epoch and microsecond
of the day (0 .. 86399999999). -/
structure DT where
  day : Int
  usec : Nat
deriving Repr, DecidableEq

/-- Microsecond value of Python's `23:59:59.999999` end-of-day stamp. -/
def dayEndUsec : Nat := 86399999999

/-- Python `datetime.weekday()`: Monday = 0 .. Sunday = 6. -/
def weekday (d : Int) : Nat := ((d + 3) % 7).toNat

/-- Python `datetime` comparison `a < b` (lexicographic on day, time). -/
def dtLt (a b : DT) : Bool := a.day < b.day || (a.day == b.day && a.usec < b.usec)

/-- Leap-year test of the proleptic Gregorian calendar (as used by
Python `datetime`). -/
def isLeap (y : Int) : Bool := (y % 4 == 0 && y % 100 != 0) || y % 400 == 0

/-- Number of days in a month of the proleptic Gregorian calendar. -/
def daysInMonth (y : Int) (m : Nat) : Nat :=
  if m = 2 then (if isLeap y then 29 else 28)
  else if m = 4 || m = 6 || m = 9 || m = 11 then 30
  else 31

/-- Civil date (year, month, day) to days since 1970-01-01
(Hinnant's `days_from_civil`; `Int.tdiv` matches C-style truncation). -/
def daysFromCivil (y0 : Int) (m d : Nat) : Int :=
  let y : Int := if m ≤ 2 then y0 - 1 else y0
  let era : Int := Int.tdiv (if 0 ≤ y then y else y - 399) 400
  let yoe : Nat := (y - era * 400).toNat
  let mp : Nat := if 2 < m then m - 3 else m + 9
  let doy : Nat := (153 * mp + 2) / 5 + d - 1
  let doe : Nat := yoe * 365 + yoe / 4 - yoe / 100 + doy
  era * 146097 + (doe : Int) - 719468

/-- Days since 1970-01-01 to civil date (Hinnant's `civil_from_days`). -/
def civilFromDays (z0 : Int) : Int × Nat × Nat :=
  let z : Int := z0 + 719468
  let era : Int := Int.tdiv (if 0 ≤ z then z else z - 146096) 146097
  let doe : Nat := (z - era * 146097).toNat
  let yoe : Nat := (doe - doe / 1460 + doe / 36524 - doe / 146096) / 365
  let y : Int := (yoe : Int) + era * 400
  let doy : Nat := doe - (365 * yoe + yoe / 4 - yoe / 100)
  let mp : Nat := (5 * doy + 2) / 153
  let d : Nat := doy - (153 * mp + 2) / 5 + 1
  let m : Nat := if mp < 10 then mp + 3 else mp - 9
  (if m ≤ 2 then y + 1 else y, m, d)

/-- Zero-pad a number to two digits (as `strftime` does for `%m` / `%d`). -/
def pad2 (n : Nat) : String := if n < 10 then "0" ++ Nat.repr n else Nat.repr n

/-- Zero-pad a number to four digits (as `strftime` does for `%Y`). -/
def pad4 (n : Nat) : String :=
  if n < 10 then "000" ++ Nat.repr n
  else if n < 100 then "00" ++ Nat.repr n
  else if n < 1000 then "0" ++ Nat.repr n
  else Nat.repr n

/-- `date.strftime('%Y-%m-%d')` (source: `format_date` inside
`_create_folder_for_date_range`, and the manifest date strings). -/
def formatDate (t : DT) : String :=
  let c := civilFromDays t.day
  pad4 c.1.toNat ++ "-" ++ pad2 c.2.1 ++ "-" ++ pad2 c.2.2

/-! ## String utilities (embedding of the Python `str` operations used) -/

/-- Python `str.lower()` restricted to the alphabets that occur in the
source's comparisons: ASCII letters plus the Polish letters appearing in
the checked substrings. -/
def pyLower (c : Char) : Char :=
  if c = 'Ą' then 'ą' else if c = 'Ć' then 'ć' else if c = 'Ę' then 'ę'
  else if c = 'Ł' then 'ł' else if c = 'Ń' then 'ń' else if c = 'Ó' then 'ó'
  else if c = 'Ś' then 'ś' else if c = 'Ź' then 'ź' else if c = 'Ż' then 'ż'
  else c.toLower

/-- `needle in hay` on character lists (Python's substring test). -/
def containsSub (needle : List Char) : List Char → Bool
  | [] => needle.isEmpty
  | c :: rest => needle.isPrefixOf (c :: rest) || containsSub needle rest

/-- `hay.startswith(needle)` on character lists. -/
def startsWithL (needle hay : List Char) : Bool := needle.isPrefixOf hay

/-- Python `str.replace(old, new)` on character lists: replaces every
non-overlapping occurrence left to right.  `fuel` bounds the recursion;
`length s` steps always suffice for a non-empty `old`. -/
def pyReplaceChars (old new : List Char) : Nat → List Char → List Char
  | _, [] => []
  | 0, s => s
  | fuel + 1, c :: rest =>
    if !old.isEmpty && old.isPrefixOf (c :: rest) then
      new ++ pyReplaceChars old new fuel (List.drop old.length (c :: rest))
    else
      c :: pyReplaceChars old new fuel rest

/-- Python `s.replace(old, new)` on strings. -/
def pyReplace (s old new : String) : String :=
  ⟨pyReplaceChars old.data new.data s.data.length s.data⟩

/-- Python `str.strip()` (ASCII whitespace) composed with `.lower()`,
as applied to the cleaner's confirmation response. -/
def pyStripLower (s : String) : String :=
  ⟨((s.data.dropWhile (fun c => c = ' ' || c = '\t' || c = '\n' || c = '\r')).reverse.dropWhile
      (fun c => c = ' ' || c = '\t' || c = '\n' || c = '\r')).reverse.map pyLower⟩

/-! ## UTF-8 (embedding of `bytes.decode('utf-8', errors='ignore')`) -/

/-- Byte strings are lists of byte values. -/
abbrev Bytes := List Nat

/-- UTF-8 encoding of one character. -/
def utf8EncodeChar (c : Char) : Bytes :=
  let n := c.toNat
  if n < 0x80 then [n]
  else if n < 0x800 then [0xC0 + n / 64, 0x80 + n % 64]
  else if n < 0x10000 then [0xE0 + n / 4096, 0x80 + n / 64 % 64, 0x80 + n % 64]
  else [0xF0 + n / 262144, 0x80 + n / 4096 % 64, 0x80 + n / 64 % 64, 0x80 + n % 64]

/-- UTF-8 encoding of a string. -/
def utf8Encode (s : String) : Bytes := (s.data.map utf8EncodeChar).flatten

/-- Is `b` a UTF-8 continuation byte (`10xxxxxx`)? -/
def isCont (b : Nat) : Bool := 0x80 ≤ b && b < 0xC0

/-- UTF-8 decoding with `errors='ignore'`: a byte that does not begin a
valid sequence is skipped and decoding resumes at the next byte.  `fuel`
bounds the recursion; every step consumes at least one byte, so a fuel of
`length bs` is always enough. -/
def utf8DecodeFuel : Nat → Bytes → List Char
  | 0, _ => []
  | _, [] => []
  | fuel + 1, b :: rest =>
    if b < 0x80 then Char.ofNat b :: utf8DecodeFuel fuel rest
    else if 0xC2 ≤ b && b < 0xE0 then
      match rest with
      | b2 :: rest2 =>
        if isCont b2 then
          Char.ofNat ((b - 0xC0) * 64 + (b2 - 0x80)) :: utf8DecodeFuel fuel rest2
        else utf8DecodeFuel fuel rest
      | [] => []
    else if 0xE0 ≤ b && b < 0xF0 then
      match rest with
      | b2 :: b3 :: rest3 =>
        if isCont b2 && isCont b3 &&
            (b ≠ 0xE0 || 0xA0 ≤ b2) && (b ≠ 0xED || b2 < 0xA0) then
          Char.ofNat ((b - 0xE0) * 4096 + (b2 - 0x80) * 64 + (b3 - 0x80))
            :: utf8DecodeFuel fuel rest3
        else utf8DecodeFuel fuel rest
      | _ => utf8DecodeFuel fuel rest
    else if 0xF0 ≤ b && b < 0xF5 then
      match rest with
      | b2 :: b3 :: b4 :: rest4 =>
        if isCont b2 && isCont b3 && isCont b4 &&
            (b ≠ 0xF0 || 0x90 ≤ b2) && (b ≠ 0xF4 || b2 < 0x90) then
          Char.ofNat ((b - 0xF0) * 262144 + (b2 - 0x80) * 4096 + (b3 - 0x80) * 64 + (b4 - 0x80))
            :: utf8DecodeFuel fuel rest4
        else utf8DecodeFuel fuel rest
      | _ => utf8DecodeFuel fuel rest
    else utf8DecodeFuel fuel rest

/-- `bytes.decode('utf-8', errors='ignore')`. -/
def utf8Decode (bs : Bytes) : List Char := utf8DecodeFuel bs.length bs

/-! ## Run configuration (the `DEFAULT_CONFIG` fields the embedded core reads)

Timeout values and retry delays configure the browser environment; their
observable outcomes (a `check_timeout` firing, an action failing) are
supplied by the explicit environment records below, so the numeric fields
are not repeated here. -/

/-- The configuration fields consumed by the embedded fragments of
`Fakturator` (`self.config`). -/
structure Config where
  weeksToProcess : Nat
  date_from : Option String
  date_to : Option String
  downloadBasePath : String
  keepWeeks : Nat
deriving Repr, DecidableEq

/-- Python truthiness of a `None`-or-string configuration entry
(`if self.config["date_from"] and self.config["date_to"]`). -/
def truthyOpt : Option String → Bool
  | none => false
  | some s => !s.isEmpty

/-! ## Date parsing (embedding of `datetime.strptime(s, "%Y-%m-%d")`)

CPython compiles `%Y-%m-%d` to the anchored regular expression
`(\d\d\d\d)-(1[0-2]|0[1-9]|[1-9])-(3[01]|[12]\d|0[1-9]|[1-9])` with no
trailing characters allowed, then validates the day against the month
length and requires `year >= 1`. -/

/-- Decimal digit value of a character. -/
def digit? (c : Char) : Option Nat :=
  if '0' ≤ c && c ≤ '9' then some (c.toNat - 48) else none

/-- Exactly four decimal digits (`%Y`). -/
def parse4Digits : List Char → Option (Nat × List Char)
  | a :: b :: c :: d :: rest =>
    match digit? a, digit? b, digit? c, digit? d with
    | some x1, some x2, some x3, some x4 => some (x1 * 1000 + x2 * 100 + x3 * 10 + x4, rest)
    | _, _, _, _ => none
  | _ => none

/-- The month token `1[0-2]|0[1-9]|[1-9]` (`%m`). -/
def parseMonthTok : List Char → Option (Nat × List Char)
  | [] => none
  | c :: rest =>
    match digit? c with
    | none => none
    | some x1 =>
      match rest with
      | c2 :: rest2 =>
        match digit? c2 with
        | some x2 =>
          if x1 = 1 && x2 ≤ 2 then some (10 + x2, rest2)
          else if x1 = 0 && 1 ≤ x2 then some (x2, rest2)
          else if 1 ≤ x1 then some (x1, rest)
          else none
        | none => if 1 ≤ x1 then some (x1, rest) else none
      | [] => if 1 ≤ x1 then some (x1, []) else none

/-- The day token `3[01]|[12]\d|0[1-9]|[1-9]` (`%d`). -/
def parseDayTok : List Char → Option (Nat × List Char)
  | [] => none
  | c :: rest =>
    match digit? c with
    | none => none
    | some x1 =>
      match rest with
      | c2 :: rest2 =>
        match digit? c2 with
        | some x2 =>
          if x1 = 3 && x2 ≤ 1 then some (30 + x2, rest2)
          else if x1 = 1 || x1 = 2 then some (x1 * 10 + x2, rest2)
          else if x1 = 0 && 1 ≤ x2 then some (x2, rest2)
          else if 1 ≤ x1 then some (x1, rest)
          else none
        | none => if 1 ≤ x1 then some (x1, rest) else none
      | [] => if 1 ≤ x1 then some (x1, []) else none

/-- `datetime.strptime(s, "%Y-%m-%d")`, returning the (year, month, day)
triple, or `none` where Python raises `ValueError`. -/
def parseDateYMD (s : String) : Option (Int × Nat × Nat) :=
  match parse4Digits s.data with
  | none => none
  | some (y, r1) =>
    match r1 with
    | '-' :: r2 =>
      match parseMonthTok r2 with
      | none => none
      | some (m, r3) =>
        match r3 with
        | '-' :: r4 =>
          match parseDayTok r4 with
          | none => none
          | some (d, r5) =>
            if r5.isEmpty && 1 ≤ y && d ≤ daysInMonth (y : Int) m then
              some ((y : Int), m, d)
            else none
        | _ => none
    | _ => none

/-! ## Date Range Planner (embedding of `_calculate_date_ranges` and
`_create_folder_for_date_range`) -/

/-- A `DateRange` as built by `_calculate_date_ranges`. -/
structure DateRange where
  startDate : DT
  endDate : DT
  folderPath : String
deriving Repr, DecidableEq

/-- Folder name built by `_create_folder_for_date_range`:
`f"{format_date(start_date)}_do_{format_date(end_date)}"`. -/
def folderName (s e : DT) : String := formatDate s ++ "_do_" ++ formatDate e

/-- `os.path.join(self.config["downloadBasePath"], folder_name)` for a
relative folder name on a POSIX path. -/
def folderPathFor (basePath : String) (s e : DT) : String :=
  basePath ++ "/" ++ folderName s e

/-- The `while start_of_week.weekday() != 6` loop of
`_calculate_date_ranges`; it can run at most 6 times, so a fuel of 7 is
exact. -/
def backToSunday : Nat → Int → Int
  | 0, d => d
  | k + 1, d => if weekday d = 6 then d else backToSunday k (d - 1)

/-- Start-of-week day computed for one `week_offset`:
`today - timedelta(days=today.weekday() + 1 + 7 * week_offset)` followed
by the backwards-to-Sunday loop. -/
def weekStart (today : DT) (offset : Nat) : Int :=
  backToSunday 7 (today.day - ((weekday today.day : Int) + 1 + 7 * (offset : Int)))

/-- One week-based `DateRange` (start at 00:00:00.000000 of the computed
Sunday, end at 23:59:59.999999 of the following Saturday). -/
def weekRangeFor (basePath : String) (today : DT) (offset : Nat) : DateRange :=
  let s := weekStart today offset
  { startDate := ⟨s, 0⟩, endDate := ⟨s + 6, dayEndUsec⟩,
    folderPath := folderPathFor basePath ⟨s, 0⟩ ⟨s + 6, dayEndUsec⟩ }

/-- The week-based branch of `_calculate_date_ranges`:
`for week_offset in range(self.config["weeksToProcess"])`. -/
def weekRanges (cfg : Config) (today : DT) : List DateRange :=
  (List.range cfg.weeksToProcess).map (weekRangeFor cfg.downloadBasePath today)

/-- `_calculate_date_ranges`: explicit `date_from`/`date_to` range when
both are set (truthy) and parse, otherwise — including on a `strptime`
failure, where Python lands in the `except` branch — the week-based
computation. -/
def calculateDateRanges (cfg : Config) (today : DT) : List DateRange :=
  if truthyOpt cfg.date_from && truthyOpt cfg.date_to then
    match cfg.date_from, cfg.date_to with
    | some s1, some s2 =>
      (match parseDateYMD s1, parseDateYMD s2 with
       | some (y1, m1, d1), some (y2, m2, d2) =>
         let sd : DT := ⟨daysFromCivil y1 m1 d1, 0⟩
         let ed : DT := ⟨daysFromCivil y2 m2 d2, dayEndUsec⟩
         [{ startDate := sd, endDate := ed,
            folderPath := folderPathFor cfg.downloadBasePath sd ed }]
       | _, _ => weekRanges cfg today)
    | _, _ => weekRanges cfg today
  else weekRanges cfg today

/-- Modelled from the spec: "the Sunday that begins the calendar week
containing `d`" (weeks run Sunday through Saturday).  This is the
comparison definition for the Planner claims, not code of the program. -/
def weekSunday (d : Int) : Int := d - (((weekday d : Int) + 1) % 7)


/-! ## `_try_action` (Session Driver retry primitive)

The browser action is modelled by its outcome per attempt:
`outcome a = true` means the `await action()` of attempt number `a`
returns, `false` means it raises.  The Python source catches every
exception of the action, so the embedding is a total function — the
primitive cannot raise to its caller. -/

/-- Observable events of one `_try_action` call. -/
inductive TryEvent where
  | attempt (n : Nat) (ok : Bool)
  | wait (ms : Nat)
  | logFail (description : String)
deriving Repr, DecidableEq

/-- The `for attempt in range(1, max_retries + 1)` loop of `_try_action`.
`a` is the current attempt number and `remaining` the number of loop
iterations left (initially `max_retries`), so `a = max_retries` exactly
when `remaining = 1`. -/
def tryActionGo (outcome : Nat → Bool) (description : String) :
    Nat → Nat → Bool × List TryEvent
  | _, 0 => (false, [])
  | a, remaining + 1 =>
    if outcome a then (true, [TryEvent.attempt a true])
    else if remaining = 0 then
      (false, [TryEvent.attempt a false, TryEvent.logFail description])
    else
      let r := tryActionGo outcome description (a + 1) remaining
      (r.1, TryEvent.attempt a false :: TryEvent.wait 500 :: r.2)

/-- `_try_action(action, description, page, max_retries=3)`: returns the
boolean result together with the trace of attempts, fixed 500 ms backoff
waits, and the failure log. -/
def tryAction (outcome : Nat → Bool) (description : String)
    (maxRetries : Nat) : Bool × List TryEvent :=
  tryActionGo outcome description 1 maxRetries

/-- Number of attempts recorded in a `_try_action` trace. -/
def countAttempts (tr : List TryEvent) : Nat :=
  tr.countP (fun e => match e with | TryEvent.attempt _ _ => true | _ => false)

/-! ## Filesystem model

Only the files the Order Processor itself writes matter to the claims, so
the filesystem is an association list from paths to byte contents. -/

/-- A filesystem: list of (path, content) with at most one entry per path. -/
abbrev Fs := List (String × Bytes)

/-- Write `b` at path `p` (create or overwrite). -/
def fsWrite (fs : Fs) (p : String) (b : Bytes) : Fs :=
  (p, b) :: fs.filter (fun e => !(e.1 == p))

/-- Content at path `p`, if present. -/
def fsLookup (fs : Fs) (p : String) : Option Bytes :=
  (fs.find? (fun e => e.1 == p)).map Prod.snd

/-- `os.path.exists(p)`. -/
def fsExists (fs : Fs) (p : String) : Bool := (fsLookup fs p).isSome

/-- `os.path.getsize(p)` (0 for a missing file; the source only queries
sizes of files it just wrote). -/
def fsSize (fs : Fs) (p : String) : Nat :=
  match fsLookup fs p with
  | some b => b.length
  | none => 0

/-- `os.rename(old, new)`: moves the entry at `old` to `new` (the source
only renames files it has just written, so `old` is always present). -/
def fsRename (fs : Fs) (old new : String) : Fs :=
  match fsLookup fs old with
  | none => fs
  | some b => fsWrite (fs.filter (fun e => !(e.1 == old))) new b

/-! ## Order Processor (embedding of `_process_order`)

Browser interactions are modelled by environment records describing what
the external world does at each interaction point; the mutation of
`self.stats`, `self.processed_order_numbers` and the download folder is
explicit state passing.  Where two different failure modes of the source
are observationally identical (for example `expect_download` timing out
versus `download.save_as` raising — both land in the same `except` that
increments the local error counter without writing a file), a single
environment outcome models them. -/

/-- `b'%PDF'` — the PDF signature bytes checked by the source. -/
def pdfSig : Bytes := [37, 80, 68, 70]

/-- `first_bytes.startswith(b'%PDF')`. -/
def startsWithPDF (b : Bytes) : Bool := pdfSig.isPrefixOf b

/-- `first_bytes.decode('utf-8', errors='ignore').lower()`. -/
def textSample (firstBytes : Bytes) : List Char :=
  (utf8Decode firstBytes).map pyLower

/-- `'polityka prywatności' in text_sample or 'prywatności' in text_sample`. -/
def hasPrivacyMarker (firstBytes : Bytes) : Bool :=
  containsSub "polityka prywatności".data (textSample firstBytes) ||
    containsSub "prywatności".data (textSample firstBytes)

/-- `row_text and "faktura" in row_text.lower()` — the sole invoice
classification rule. -/
def invoiceRowText (t : String) : Bool :=
  !t.isEmpty && containsSub "faktura".data (t.data.map pyLower)

/-- `url.endswith('.pdf') or 'pdf' in url.lower()` — the new-tab check. -/
def urlLooksPdf (url : String) : Bool :=
  ".pdf".data.isSuffixOf url.data || containsSub "pdf".data (url.data.map pyLower)

/-- `file_name = f"faktura_{order_number.replace('/', '_')}.pdf"`. -/
def fileNameFor (orderNumber : String) : String :=
  "faktura_" ++ pyReplace orderNumber "/" "_" ++ ".pdf"

/-- `save_path = os.path.join(download_folder, file_name)`. -/
def savePathFor (folder orderNumber : String) : String :=
  folder ++ "/" ++ fileNameFor orderNumber

/-- `privacy_path = save_path.replace('.pdf', '_polityka_prywatnosci.pdf')`. -/
def privacyPathFor (saveP : String) : String :=
  pyReplace saveP ".pdf" "_polityka_prywatnosci.pdf"

/-- What the environment does when the processor interacts with one
document row's new browser tab (strategy 2): the URL of the tab and, when
the processor re-triggers a download from it, the downloaded content
(`none` models `expect_download` raising). -/
structure TabEnv where
  url : String
  download2 : Option Bytes
deriving Repr, DecidableEq

/-- Environment for processing one document row of an order.
`rowText = none` models `text_content()` raising (the outer `except`),
`download = none` models the primary `expect_download` failing,
`saveFails` models `os.path.exists(save_path)` returning `False` after
`save_as`, `newTab = none` models `context.expect_page` timing out, and
`apiUrl`/`apiData` model the in-page API link search and fetch (the
fetched base64 payload is given already decoded — base64 round-trips, so
any byte content is expressible). -/
structure RowEnv where
  timedOutNow : Bool
  rowText : Option String
  download : Option Bytes
  saveFails : Bool
  forceClickRaises : Bool
  newTab : Option TabEnv
  apiUrl : Option String
  apiData : Option Bytes
deriving Repr, DecidableEq

/-- State threaded through the document-row loop of `_process_order`:
the filesystem, `self.stats["downloadedInvoices"]`, the local
`pobrano_dokumenty` flag and the local `document_processing_errors`. -/
structure RowState where
  fs : Fs
  downloadedInvoices : Nat
  pobranoDokumenty : Bool
  docErrors : Nat
deriving Repr, DecidableEq

/-- Observable actions of the Order Processor, used to state which
download strategies were attempted and what was persisted or counted. -/
inductive Act where
  | dedupSkip (orderNumber : String)
  | savedPrimary (path : String)
  | renamedPrivacy (fromPath toPath : String)
  | triedNewTab
  | tabDownloadSaved (path : String)
  | triedApi
  | apiSaved (path : String)
  | countedInvoice
  | rowError
deriving Repr, DecidableEq

/-- Strategy 2 (force-click then middle-click expecting a new tab,
source lines 686–722): returns the updated filesystem, the number of
`downloadedInvoices` increments, whether `pobrano_dokumenty` was set, and
the emitted actions. -/
def tryNewTab (saveP : String) (fs : Fs) (newTab : Option TabEnv) :
    Fs × Nat × Bool × List Act :=
  match newTab with
  | none => (fs, 0, false, [Act.triedNewTab])
  | some tab =>
    if urlLooksPdf tab.url then
      match tab.download2 with
      | some b2 =>
        (fsWrite fs saveP b2, 1, true,
         [Act.triedNewTab, Act.tabDownloadSaved saveP, Act.countedInvoice])
      | none => (fs, 0, false, [Act.triedNewTab])
    else (fs, 0, false, [Act.triedNewTab])

/-- Strategy 3 (API link search and in-page fetch, source lines 724–784),
guarded by `not os.path.exists(save_path) or os.path.getsize(save_path) == 0`. -/
def tryApiFetch (saveP : String) (fs : Fs) (apiUrl : Option String)
    (apiData : Option Bytes) : Fs × Nat × Bool × List Act :=
  if !(fsExists fs saveP) || fsSize fs saveP = 0 then
    match apiUrl with
    | none => (fs, 0, false, [Act.triedApi])
    | some _ =>
      match apiData with
      | some pb =>
        (fsWrite fs saveP pb, 1, true,
         [Act.triedApi, Act.apiSaved saveP, Act.countedInvoice])
      | none => (fs, 0, false, [Act.triedApi])
  else (fs, 0, false, [])

/-- Body of the document-row loop of `_process_order`
(source lines 602–805, one `doc_row`). -/
def processDocRow (saveP privacyP : String) (st : RowState) (env : RowEnv) :
    RowState × List Act :=
  match env.rowText with
  | none => ({ st with docErrors := st.docErrors + 1 }, [Act.rowError])
  | some rowText =>
    if invoiceRowText rowText then
      match env.download with
      | none => ({ st with docErrors := st.docErrors + 1 }, [Act.rowError])
      | some bts =>
        if env.saveFails then (st, [])
        else
          let fs1 := fsWrite st.fs saveP bts
          let firstBytes := bts.take 1024
          if startsWithPDF firstBytes then
            if hasPrivacyMarker firstBytes then
              let fs2 := fsRename fs1 saveP privacyP
              let acts0 := [Act.savedPrimary saveP, Act.renamedPrivacy saveP privacyP]
              if env.forceClickRaises then
                ({ st with fs := fs2, docErrors := st.docErrors + 1 },
                 acts0 ++ [Act.rowError])
              else
                let tr := tryNewTab saveP fs2 env.newTab
                let ar := tryApiFetch saveP tr.1 env.apiUrl env.apiData
                ({ fs := ar.1,
                   downloadedInvoices := st.downloadedInvoices + tr.2.1 + ar.2.1,
                   pobranoDokumenty := st.pobranoDokumenty || tr.2.2.1 || ar.2.2.1,
                   docErrors := st.docErrors },
                 acts0 ++ tr.2.2.2 ++ ar.2.2.2)
            else
              ({ st with fs := fs1, downloadedInvoices := st.downloadedInvoices + 1 },
               [Act.savedPrimary saveP, Act.countedInvoice])
          else
            ({ st with fs := fs1 }, [Act.savedPrimary saveP])
    else (st, [])

/-- The `for j, doc_row in enumerate(document_rows)` loop: breaks on a
`check_timeout()` at the head of an iteration and after a row that brings
`document_processing_errors` to 3. -/
def processDocRows (saveP privacyP : String) : RowState → List RowEnv → RowState × List Act
  | st, [] => (st, [])
  | st, env :: rest =>
    if env.timedOutNow then (st, [])
    else
      let r := processDocRow saveP privacyP st env
      if 3 ≤ r.1.docErrors then r
      else
        let r2 := processDocRows saveP privacyP r.1 rest
        (r2.1, r.2 ++ r2.2)

/-- Environment for `_process_order` on one order: outcomes of the
`_try_action` row click and Documents click, the `check_timeout()` polls
after each step, and the document rows found. -/
structure OrderEnv where
  clickRow : Bool
  timeoutAfterRowClick : Bool
  clickDocuments : Bool
  timeoutAfterDocsClick : Bool
  documentRows : List RowEnv
  timeoutAfterDocs : Bool
deriving Repr, DecidableEq

/-- Run-scoped state of `Fakturator`: `self.processed_order_numbers`,
`self.stats` and the output filesystem. -/
structure RunState where
  processedOrderNumbers : List String
  processedOrders : Nat
  downloadedInvoices : Nat
  errors : Nat
  fs : Fs
deriving Repr, DecidableEq

/-- `_process_order(page, context, order, ...)` for the order with number
`orderNumber`, downloading into `folder` (the date range's `folderPath`).
The dedup gate is checked first; the order number is added to
`self.processed_order_numbers` the moment an attempt starts, before any
click can fail. -/
def processOrder (st : RunState) (orderNumber folder : String) (env : OrderEnv) :
    RunState × List Act :=
  if orderNumber ∈ st.processedOrderNumbers then (st, [Act.dedupSkip orderNumber])
  else
    let st1 := { st with processedOrderNumbers := orderNumber :: st.processedOrderNumbers }
    if !env.clickRow || env.timeoutAfterRowClick then (st1, [])
    else if !env.clickDocuments || env.timeoutAfterDocsClick then (st1, [])
    else if env.documentRows.isEmpty || env.timeoutAfterDocs then (st1, [])
    else
      let saveP := savePathFor folder orderNumber
      let privacyP := privacyPathFor saveP
      let rs : RowState := ⟨st1.fs, st1.downloadedInvoices, false, 0⟩
      let r := processDocRows saveP privacyP rs env.documentRows
      ({ st1 with
           fs := r.1.fs,
           downloadedInvoices := r.1.downloadedInvoices,
           processedOrders := st1.processedOrders + (if r.1.pobranoDokumenty then 1 else 0) },
       r.2)

/-- The `for i, order in enumerate(weeks_orders)` loop of
`_process_date_range` (source lines 490–491): orders are processed
strictly sequentially. -/
def processOrders (folder : String) : RunState → List (String × OrderEnv) → RunState × List Act
  | st, [] => (st, [])
  | st, (n, env) :: rest =>
    let r := processOrder st n folder env
    let r2 := processOrders folder r.1 rest
    (r2.1, r.2 ++ r2.2)

/-- Number of times the download logic actually runs for order number `n`
during a sequence of `_process_order` calls: an occurrence counts only
when it passes the dedup gate. -/
def attemptsFor (folder n : String) : RunState → List (String × OrderEnv) → Nat
  | _, [] => 0
  | st, (m, env) :: rest =>
    (if m = n ∧ ¬ m ∈ st.processedOrderNumbers then 1 else 0) +
      attemptsFor folder n (processOrder st m folder env).1 rest

/-! ## Retention Cleaner (embedding of `clean_old_invoices`)

The scan of the base directory is modelled by a list of directory
entries; `input()` and per-item deletion outcomes come from the
environment. -/

/-- One top-level entry of the download base directory as the source
inspects it: its name, whether it is a directory, the number of regular
files inside (for directories), and `st_size` / `st_mtime` (for files). -/
structure CleanEntry where
  name : String
  isDir : Bool
  fileCount : Nat
  size : Nat
  mtime : DT
deriving Repr, DecidableEq

/-- One entry of the deletion manifest (`items_to_delete`).  `cmpDate` is
the `datetime` value the source compared against the cutoff (the parsed
folder end date, or the file's modification time); the source stores its
formatted form in the item as well. -/
structure ManifestItem where
  path : String
  name : String
  isFolder : Bool
  dateStr : String
  cmpDate : DT
  fileCount : Nat
  size : Nat
deriving Repr, DecidableEq

/-- Cleanup statistics (the `stats` dict of `clean_old_invoices`). -/
structure CleanStats where
  folders_to_delete : Nat
  files_to_delete : Nat
  folders_deleted : Nat
  files_deleted : Nat
deriving Repr, DecidableEq

/-- Exactly `k` decimal digits. -/
def matchDigits : Nat → List Char → Option (List Char × List Char)
  | 0, rest => some ([], rest)
  | _ + 1, [] => none
  | k + 1, c :: rest =>
    if (digit? c).isSome then
      match matchDigits k rest with
      | some (ds, r) => some (c :: ds, r)
      | none => none
    else none

/-- The pattern `\d{4}-\d{2}-\d{2}`, returning the matched characters and
the remainder. -/
def matchDatePat (cs : List Char) : Option (List Char × List Char) :=
  match matchDigits 4 cs with
  | none => none
  | some (d4, r1) =>
    match r1 with
    | '-' :: r2 =>
      match matchDigits 2 r2 with
      | none => none
      | some (dm, r3) =>
        match r3 with
        | '-' :: r4 =>
          match matchDigits 2 r4 with
          | none => none
          | some (dd, r5) => some (d4 ++ '-' :: dm ++ '-' :: dd, r5)
        | _ => none
    | _ => none

/-- `re.match(r"(\d{4}-\d{2}-\d{2})_do_(\d{4}-\d{2}-\d{2})", item)`:
anchored at the start only (`re.match` allows trailing characters),
returning the two captured groups. -/
def folderNameDates (name : String) : Option (String × String) :=
  match matchDatePat name.data with
  | none => none
  | some (g1, r1) =>
    if startsWithL "_do_".data r1 then
      match matchDatePat (r1.drop 4) with
      | none => none
      | some (g2, _) => some (⟨g1⟩, ⟨g2⟩)
    else none

/-- Scan of one directory entry (source lines 1018–1060): an old enough
date-named folder or an old enough `zamowienia_tabela_*` screenshot file
becomes a deletion candidate; a `strptime` failure on a matched name
skips the entry. -/
def scanEntry (basePath : String) (cutoff : DT) (e : CleanEntry) : Option ManifestItem :=
  match folderNameDates e.name, e.isDir with
  | some (g1, g2), true =>
    (match parseDateYMD g1, parseDateYMD g2 with
     | some _, some (y2, m2, d2) =>
       if dtLt ⟨daysFromCivil y2 m2 d2, 0⟩ cutoff then
         some { path := basePath ++ "/" ++ e.name, name := e.name, isFolder := true,
                dateStr := formatDate ⟨daysFromCivil y2 m2 d2, 0⟩,
                cmpDate := ⟨daysFromCivil y2 m2 d2, 0⟩,
                fileCount := e.fileCount, size := 0 }
       else none
     | _, _ => none)
  | _, _ =>
    if !e.isDir && startsWithL "zamowienia_tabela_".data e.name.data then
      if dtLt e.mtime cutoff then
        some { path := basePath ++ "/" ++ e.name, name := e.name, isFolder := false,
               dateStr := formatDate e.mtime, cmpDate := e.mtime,
               fileCount := 0, size := e.size }
      else none
    else none

/-- The statistics accumulated during the scan: one folder adds 1 to
`folders_to_delete` and its file count to `files_to_delete`; one aged
file adds 1 to `files_to_delete`. -/
def cleanStatsPre (items : List ManifestItem) : CleanStats :=
  { folders_to_delete := items.countP (fun it => it.isFolder),
    files_to_delete := items.foldl (fun acc it => acc + (if it.isFolder then it.fileCount else 1)) 0,
    folders_deleted := 0, files_deleted := 0 }

/-- Environment of one `clean_old_invoices` call: whether the base path
exists, the directory entries, the `input()` response (`none` models the
call raising), and which deletions succeed. -/
structure CleanEnv where
  basePathExists : Bool
  entries : List CleanEntry
  userResponse : Option String
  deleteOk : String → Bool

/-- The confirmation check: `response = input().strip().lower()` must be
`'t'` or `'tak'` to proceed; an exception cancels. -/
def isYes : Option String → Bool
  | none => false
  | some s => pyStripLower s == "t" || pyStripLower s == "tak"

/-- `clean_old_invoices(confirm)`: returns the final statistics, the
manifest printed before any deletion (`items_to_delete`), and the items
actually deleted. -/
def clean_old_invoices (basePath : String) (keepWeeks : Nat) (confirm : Bool)
    (now : DT) (env : CleanEnv) : CleanStats × List ManifestItem × List ManifestItem :=
  if !env.basePathExists then (⟨0, 0, 0, 0⟩, [], [])
  else
    let cutoff : DT := ⟨now.day - 7 * (keepWeeks : Int), now.usec⟩
    let items := env.entries.filterMap (scanEntry basePath cutoff)
    let pre := cleanStatsPre items
    if items.isEmpty then (pre, [], [])
    else if confirm && !isYes env.userResponse then (pre, items, [])
    else
      let deleted := items.filter (fun it => env.deleteOk it.path)
      ({ pre with folders_deleted := deleted.countP (fun it => it.isFolder),
                  files_deleted := deleted.countP (fun it => !it.isFolder) },
       items, deleted)

/-! ## Configuration merge (embedding of `_update_config`)

Python/JSON values are modelled by `JVal`; a dict is an association list
(insertion-ordered, unique keys in every dict Python can build). -/

/-- A JSON/Python configuration value. -/
inductive JVal where
  | jnull
  | jbool (b : Bool)
  | jnum (n : Int)
  | jstr (s : String)
  | jdict (fields : List (String × JVal))

/-- `key in d` for a modelled dict. -/
def keyIn (k : String) (l : List (String × JVal)) : Bool :=
  l.any (fun p => p.1 == k)

/-- `d[key] = value` for a key already present (in-place update). -/
def setKey (l : List (String × JVal)) (k : String) (v : JVal) : List (String × JVal) :=
  l.map (fun p => if p.1 == k then (p.1, v) else p)

/-- `d[key]` lookup. -/
def lookupKey (l : List (String × JVal)) (k : String) : Option JVal :=
  (l.find? (fun p => p.1 == k)).map Prod.snd

/-- The inner loop of `_update_config`: for each (subkey, subvalue) of the
custom nested dict, update the config's nested dict only when the subkey
is already present. -/
def mergeSub (d d' : List (String × JVal)) : List (String × JVal) :=
  d'.foldl (fun acc p => if keyIn p.1 acc then setKey acc p.1 p.2 else acc) d

/-- One iteration of the outer loop of `_update_config` for key `k` and
value `v`: keys absent from the config are ignored; when both the custom
value and the existing value are dicts the nested merge runs, otherwise
the value is assigned wholesale. -/
def updateTop (cfg : List (String × JVal)) (k : String) (v : JVal) : List (String × JVal) :=
  if keyIn k cfg then
    match v, lookupKey cfg k with
    | JVal.jdict sub, some (JVal.jdict d) => setKey cfg k (JVal.jdict (mergeSub d sub))
    | _, _ => setKey cfg k v
  else cfg

/-- `_update_config(custom_config)` on a dict-valued `custom_config`. -/
def updateConfig (cfg custom : List (String × JVal)) : List (String × JVal) :=
  custom.foldl (fun acc p => updateTop acc p.1 p.2) cfg

/-- `Fakturator.DEFAULT_CONFIG` as a modelled dict. -/
def defaultConfigJ : List (String × JVal) :=
  [("login", JVal.jstr "apteka@pcrsopot.pl"),
   ("password", JVal.jstr "Apteka2025!!"),
   ("weeksToProcess", JVal.jnum 2),
   ("date_from", JVal.jnull),
   ("date_to", JVal.jnull),
   ("timeouts", JVal.jdict
     [("page", JVal.jnum 10000), ("test", JVal.jnum 600000),
      ("extraWait", JVal.jnum 1000), ("downloadTimeout", JVal.jnum 15000),
      ("maxDocumentProcessingTime", JVal.jnum 30000)]),
   ("downloadBasePath", JVal.jstr "./faktury"),
   ("logLevel", JVal.jstr "minimal"),
   ("errorHandling", JVal.jdict
     [("maxNetworkRetries", JVal.jnum 3), ("networkRetryDelay", JVal.jnum 5000)]),
   ("cleaning", JVal.jdict [("keepWeeks", JVal.jnum 12)])]

/-! ## Spec-side helper predicates and concrete inputs -/

/-- Does the new-tab fallback of a row environment yield a persisted
download?  (Used to state when the chain reaches the API strategy.) -/
def tabYields (env : RowEnv) : Bool :=
  match env.newTab with
  | none => false
  | some tab => urlLooksPdf tab.url && tab.download2.isSome

/-- Content of a correct invoice PDF: `%PDF` signature, no privacy
marker. -/
def bytesPdfInvoice : Bytes := utf8Encode "%PDF-1.4 tresc faktury"

/-- Content of the misfired document: `%PDF` signature and the privacy
marker in the decoded text. -/
def bytesPdfPrivacy : Bytes := utf8Encode "%PDF polityka prywatności"

/-- Content with no `%PDF` signature (an HTML error page, say). -/
def bytesHtml : Bytes := utf8Encode "<html>"

/-- The empty run state (fresh `Fakturator` after `run()`'s stats reset). -/
def runState0 : RunState := ⟨[], 0, 0, 0, []⟩

/-- A fresh row-loop state. -/
def rowState0 : RowState := ⟨[], 0, false, 0⟩

/-- Document row whose primary download yields a verified invoice PDF. -/
def rowEnvVerified : RowEnv :=
  ⟨false, some "Faktura VAT 1/2024", some bytesPdfInvoice, false, false, none, none, none⟩

/-- Order environment for `rowEnvVerified`: every click succeeds and no
timeout fires. -/
def orderEnvVerified : OrderEnv := ⟨true, false, true, false, [rowEnvVerified], false⟩

/-- Document row where the primary download is the privacy-policy PDF,
the new tab never opens, and the API fetch returns non-PDF bytes. -/
def rowEnvApiNonPdf : RowEnv :=
  ⟨false, some "Faktura VAT 2/2024", some bytesPdfPrivacy, false, false, none,
   some "https://e-urtica.pl/api/document/9", some bytesHtml⟩

/-- Order environment for `rowEnvApiNonPdf`. -/
def orderEnvApiNonPdf : OrderEnv := ⟨true, false, true, false, [rowEnvApiNonPdf], false⟩

/-- Document row where the primary download is the privacy-policy PDF and
every fallback strategy fails. -/
def rowEnvPrivacyAllFail : RowEnv :=
  ⟨false, some "Faktura VAT 3/2024", some bytesPdfPrivacy, false, false, none, none, none⟩

/-- Document row whose primary download has no `%PDF` signature. -/
def rowEnvNonPdf : RowEnv :=
  ⟨false, some "Faktura VAT 4/2024", some bytesHtml, false, false, none, none, none⟩

/-- An order environment that never gets past the row click (its content
is irrelevant to the dedup gate). -/
def orderEnvIdle : OrderEnv := ⟨false, false, false, false, [], false⟩

/-- A run state in which order `ZS/1/2/UR` was already processed. -/
def runStateSeen : RunState := ⟨["ZS/1/2/UR"], 1, 1, 0, []⟩

/-- Planner configuration: two weeks back, no explicit range. -/
def cfgTwoWeeks : Config := ⟨2, none, none, "./faktury", 12⟩

/-- Planner configuration: one week back, no explicit range. -/
def cfgOneWeek : Config := ⟨1, none, none, "./faktury", 12⟩

/-- Planner configuration with an explicit, parseable date range. -/
def cfgExplicit : Config := ⟨2, some "2024-03-05", some "2024-03-07", "./faktury", 12⟩

/-- 2024-03-10, a Sunday (day 19792 since the epoch). -/
def todaySunday : DT := ⟨19792, 0⟩

/-- 2024-03-11, a Monday. -/
def todayMonday : DT := ⟨19793, 0⟩

/-- Cleaner environment: one folder whose end date (2024-01-07) is about
13 weeks before `nowClean`, confirmation answered `t`, all deletions
succeed. -/
def cleanEnvOld : CleanEnv :=
  ⟨true, [⟨"2024-01-01_do_2024-01-07", true, 3, 0, ⟨0, 0⟩⟩], some "t", fun _ => true⟩

/-- 2024-04-04 (day 19817): more than 12 weeks after 2024-01-07. -/
def nowClean : DT := ⟨19817, 0⟩

/-- A custom configuration with one unknown top-level key, one known
simple key and one nested update with an unknown subkey. -/
def customCfgJ : List (String × JVal) :=
  [("unknownKey", JVal.jnum 1),
   ("logLevel", JVal.jstr "verbose"),
   ("timeouts", JVal.jdict [("page", JVal.jnum 20000), ("bogus", JVal.jnum 7)])]

/-- The start-of-week day `today - (weekday(today) + 1 + 7*offset)` — the
value `weekStart` computes once the backwards-to-Sunday loop is shown to
be a no-op. -/
def weekAnchor (today : DT) (i : Nat) : Int :=
  today.day - ((weekday today.day : Int) + 1 + 7 * (i : Int))

/-! ## Helper lemmas -/

theorem fsLookup_fsWrite_self (fs : Fs) (p : String) (b : Bytes) :
    fsLookup (fsWrite fs p b) p = some b := by
  simp [fsLookup, fsWrite, List.find?_cons]

theorem fsLookup_fsWrite_ne (fs : Fs) (p q : String) (b : Bytes) (h : ¬ q = p) :
    fsLookup (fsWrite fs q b) p = fsLookup fs p := by
  simp only [fsLookup, fsWrite]
  rw [List.find?_cons_of_neg _ (by simpa using h)]
  congr 1
  induction fs with
  | nil => rfl
  | cons e rest ih =>
    by_cases hq : e.1 = q
    · rw [List.filter_cons_of_neg (by simp [hq])]
      rw [List.find?_cons_of_neg _ (by simp [hq, h]), ih]
    · rw [List.filter_cons_of_pos (by simp [hq])]
      by_cases hp : e.1 = p
      · rw [List.find?_cons_of_pos _ (by simp [hp]), List.find?_cons_of_pos _ (by simp [hp])]
      · rw [List.find?_cons_of_neg _ (by simp [hp]), List.find?_cons_of_neg _ (by simp [hp]), ih]

theorem tryActionGo_spec (outcome : Nat → Bool) (d : String) :
    ∀ (rem a : Nat),
      countAttempts (tryActionGo outcome d a rem).2 ≤ rem
      ∧ ((tryActionGo outcome d a rem).1 = false ↔ ∀ i, i < rem → outcome (a + i) = false)
      ∧ (1 ≤ rem → (tryActionGo outcome d a rem).1 = false →
          TryEvent.logFail d ∈ (tryActionGo outcome d a rem).2)
      ∧ (∀ ms, TryEvent.wait ms ∈ (tryActionGo outcome d a rem).2 → ms = 500) := by
  intro rem
  induction rem with
  | zero =>
    intro a
    simp [tryActionGo, countAttempts]
  | succ rem ih =>
    intro a
    cases hfa : outcome a with
    | true =>
      have hgo : tryActionGo outcome d a (rem + 1) = (true, [TryEvent.attempt a true]) := by
        simp [tryActionGo, hfa]
      refine ⟨?_, ?_, ?_, ?_⟩
      · rw [hgo]; simp [countAttempts]
      · rw [hgo]
        constructor
        · intro hfalse; cases hfalse
        · intro hall
          have h0 := hall 0 (by omega)
          rw [Nat.add_zero] at h0
          rw [hfa] at h0
          cases h0
      · intro _ hfalse
        rw [hgo] at hfalse
        cases hfalse
      · intro ms hmem
        rw [hgo] at hmem
        simp at hmem
    | false =>
      by_cases hr : rem = 0
      · subst hr
        have hgo : tryActionGo outcome d a 1 =
            (false, [TryEvent.attempt a false, TryEvent.logFail d]) := by
          simp [tryActionGo, hfa]
        refine ⟨?_, ?_, ?_, ?_⟩
        · rw [hgo]; simp [countAttempts]
        · rw [hgo]
          constructor
          · intro _ i hi
            have h0 : i = 0 := by omega
            subst h0
            rw [Nat.add_zero]
            exact hfa
          · intro _; rfl
        · intro _ _
          rw [hgo]
          simp
        · intro ms hmem
          rw [hgo] at hmem
          simp at hmem
      · have hgo : tryActionGo outcome d a (rem + 1) =
            ((tryActionGo outcome d (a + 1) rem).1,
              TryEvent.attempt a false :: TryEvent.wait 500 ::
                (tryActionGo outcome d (a + 1) rem).2) := by
          simp [tryActionGo, hfa, hr]
        have ihspec := ih (a + 1)
        refine ⟨?_, ?_, ?_, ?_⟩
        · rw [hgo]
          have h1 := ihspec.1
          simp only [countAttempts] at h1
          simp [countAttempts, List.countP_cons]
          omega
        · rw [hgo]
          simp only []
          rw [ihspec.2.1]
          constructor
          · intro hall i hi
            rcases Nat.eq_zero_or_pos i with h0 | hpos
            · subst h0; rw [Nat.add_zero]; exact hfa
            · have hx := hall (i - 1) (by omega)
              have hi2 : a + 1 + (i - 1) = a + i := by omega
              rwa [hi2] at hx
          · intro hall i hi
            have hx := hall (i + 1) (by omega)
            have hi2 : a + (i + 1) = a + 1 + i := by omega
            rwa [hi2] at hx
        · intro _ hfalse
          rw [hgo] at hfalse ⊢
          have hmem := ihspec.2.2.1 (by omega) hfalse
          exact List.mem_cons_of_mem _ (List.mem_cons_of_mem _ hmem)
        · intro ms hmem
          rw [hgo] at hmem
          rcases List.mem_cons.mp hmem with h1 | h1
          · cases h1
          · rcases List.mem_cons.mp h1 with h2 | h2
            · injection h2
            · exact ihspec.2.2.2 ms h2

/-- C8: `_try_action` retries the action up to `max_retries` times
(default 3), waiting a fixed 500 ms between attempts; it returns `False`
exactly when every attempt failed, logs the description on exhaustion,
and — all exceptions of the action being caught — is a total function
that never raises to its caller. -/
theorem C8_tryAction_retry_contract (outcome : Nat → Bool) (d : String) (m : Nat) :
    countAttempts (tryAction outcome d m).2 ≤ m
    ∧ ((tryAction outcome d m).1 = false ↔ ∀ i, i < m → outcome (1 + i) = false)
    ∧ (1 ≤ m → (tryAction outcome d m).1 = false →
        TryEvent.logFail d ∈ (tryAction outcome d m).2)
    ∧ (∀ ms, TryEvent.wait ms ∈ (tryAction outcome d m).2 → ms = 500) :=
  tryActionGo_spec outcome d m 1

theorem C8_tryAction_retry_contract_witness :
    (1 ≤ 3 ∧ (tryAction (fun _ => false) "klik" 3).1 = false)
    ∧ TryEvent.logFail "klik" ∈ (tryAction (fun _ => false) "klik" 3).2 :=
  ⟨⟨by decide, by decide⟩,
   (C8_tryAction_retry_contract (fun _ => false) "klik" 3).2.2.1 (by decide) (by decide)⟩

theorem weekday_anchor (d k : Int) :
    weekday (d - ((weekday d : Int) + 1 + 7 * k)) = 6 := by
  simp only [weekday]
  omega

theorem backToSunday_of_sunday (n : Nat) (d : Int) (h : weekday d = 6) :
    backToSunday n d = d := by
  cases n with
  | zero => rfl
  | succ k => simp [backToSunday, h]

theorem weekStart_eq_anchor (today : DT) (i : Nat) :
    weekStart today i = weekAnchor today i := by
  unfold weekStart weekAnchor
  exact backToSunday_of_sunday 7 _ (weekday_anchor today.day (i : Int))

/-- C5 (amended): with no explicit date range configured, the Planner
returns exactly `weeksToProcess` ranges, each a full Sunday–Saturday
week (Sunday 00:00:00.000000 through Saturday 23:59:59.999999),
most-recent-first with consecutive starts exactly 7 days apart (no gaps,
no overlaps).  The Sunday for offset `i` is
`today - (weekday(today) + 1 + 7*i)` days; whenever today is NOT itself a
Sunday this is the Sunday beginning the calendar week containing
`today - 7*i` days, as the original claim states — but when today IS a
Sunday every range sits one week earlier than the claim requires. -/
theorem C5_weekly_ranges_amended (cfg : Config) (today : DT)
    (h : truthyOpt cfg.date_from = false) :
    (calculateDateRanges cfg today).length = cfg.weeksToProcess
    ∧ (∀ i, i < cfg.weeksToProcess →
        (calculateDateRanges cfg today).get? i =
          some ⟨⟨weekAnchor today i, 0⟩, ⟨weekAnchor today i + 6, dayEndUsec⟩,
                folderPathFor cfg.downloadBasePath ⟨weekAnchor today i, 0⟩
                  ⟨weekAnchor today i + 6, dayEndUsec⟩⟩)
    ∧ (∀ i, weekday (weekAnchor today i) = 6)
    ∧ (∀ i, weekAnchor today (i + 1) = weekAnchor today i - 7)
    ∧ (weekday today.day ≠ 6 →
        ∀ i, weekAnchor today i = weekSunday (today.day - 7 * (i : Int))) := by
  have hcalc : calculateDateRanges cfg today = weekRanges cfg today := by
    unfold calculateDateRanges
    rw [h]
    simp
  refine ⟨?_, ?_, ?_, ?_, ?_⟩
  · rw [hcalc]
    simp [weekRanges]
  · intro i hi
    rw [hcalc]
    simp only [weekRanges, List.get?_map, List.get?_range hi, Option.map_some]
    simp [weekRangeFor, weekStart_eq_anchor]
  · intro i
    exact weekday_anchor today.day (i : Int)
  · intro i
    simp only [weekAnchor]
    push_cast
    ring
  · intro h6 i
    simp only [weekAnchor, weekSunday, weekday] at h6 ⊢
    omega

theorem C5_weekly_ranges_amended_witness :
    truthyOpt cfgTwoWeeks.date_from = false
    ∧ (calculateDateRanges cfgTwoWeeks todayMonday).length = 2 :=
  ⟨rfl, (C5_weekly_ranges_amended cfgTwoWeeks todayMonday rfl).1⟩

/-- C5 (counterexample): on Sunday 2024-03-10 (day 19792) with
`weeksToProcess = 1`, the produced range starts on day 19785
(2024-03-03), while the Sunday beginning the week containing
`today - 0*7` is 19792 itself — the claim as stated fails whenever today
is a Sunday. -/
theorem C5_weekly_ranges_counterexample :
    weekday todaySunday.day = 6
    ∧ (calculateDateRanges cfgOneWeek todaySunday).map (fun r => r.startDate.day) = [19785]
    ∧ weekSunday (todaySunday.day - 7 * (0 : Int)) = 19792
    ∧ (19785 : Int) ≠ 19792 := by
  refine ⟨by decide, by decide, by decide, by decide⟩

/-- C6: when both explicit dates are configured (truthy) and both parse,
`_calculate_date_ranges` returns exactly one range from 00:00:00.000000
of `date_from` to 23:59:59.999999 of `date_to`; if either fails to parse
it falls back to the week-based computation. -/
theorem C6_explicit_range_precedence :
    (∀ (cfg : Config) (today : DT) (s1 s2 : String) (y1 y2 : Int) (m1 d1 m2 d2 : Nat),
      cfg.date_from = some s1 → cfg.date_to = some s2 →
      s1.isEmpty = false → s2.isEmpty = false →
      parseDateYMD s1 = some (y1, m1, d1) → parseDateYMD s2 = some (y2, m2, d2) →
      calculateDateRanges cfg today =
        [⟨⟨daysFromCivil y1 m1 d1, 0⟩, ⟨daysFromCivil y2 m2 d2, dayEndUsec⟩,
          folderPathFor cfg.downloadBasePath ⟨daysFromCivil y1 m1 d1, 0⟩
            ⟨daysFromCivil y2 m2 d2, dayEndUsec⟩⟩])
    ∧ (∀ (cfg : Config) (today : DT) (s1 s2 : String),
      cfg.date_from = some s1 → cfg.date_to = some s2 →
      s1.isEmpty = false → s2.isEmpty = false →
      (parseDateYMD s1 = none ∨ parseDateYMD s2 = none) →
      calculateDateRanges cfg today = weekRanges cfg today) := by
  constructor
  · intro cfg today s1 s2 y1 y2 m1 d1 m2 d2 h1 h2 he1 he2 hp1 hp2
    unfold calculateDateRanges
    rw [h1, h2]
    simp [truthyOpt, he1, he2, hp1, hp2]
  · intro cfg today s1 s2 h1 h2 he1 he2 hp
    unfold calculateDateRanges
    rw [h1, h2]
    rcases hp with hp | hp
    · simp [truthyOpt, he1, he2, hp]
    · cases hq : parseDateYMD s1 with
      | none => simp [truthyOpt, he1, he2, hq]
      | some t =>
        obtain ⟨y1, m1, d1⟩ := t
        simp [truthyOpt, he1, he2, hq, hp]

theorem C6_explicit_range_precedence_witness :
    (cfgExplicit.date_from = some "2024-03-05"
      ∧ parseDateYMD "2024-03-05" = some (2024, 3, 5)
      ∧ parseDateYMD "2024-03-07" = some (2024, 3, 7))
    ∧ calculateDateRanges cfgExplicit todayMonday =
        [⟨⟨daysFromCivil 2024 3 5, 0⟩, ⟨daysFromCivil 2024 3 7, dayEndUsec⟩,
          folderPathFor cfgExplicit.downloadBasePath ⟨daysFromCivil 2024 3 5, 0⟩
            ⟨daysFromCivil 2024 3 7, dayEndUsec⟩⟩] :=
  ⟨⟨rfl, by decide, by decide⟩,
   C6_explicit_range_precedence.1 cfgExplicit todayMonday "2024-03-05" "2024-03-07"
     2024 2024 3 5 3 7 rfl rfl rfl rfl (by decide) (by decide)⟩

/-- C9 (counterexample): the per-range folder for the week 2024-03-03
through 2024-03-09 is named `2024-03-03_do_2024-03-09` — the separator is
the Polish `_do_`, not `_to_` as the claim states. -/
theorem C9_folder_separator_counterexample :
    folderName ⟨19785, 0⟩ ⟨19791, dayEndUsec⟩ = "2024-03-03_do_2024-03-09"
    ∧ folderName ⟨19785, 0⟩ ⟨19791, dayEndUsec⟩ ≠ "2024-03-03_to_2024-03-09" := by
  refine ⟨by decide, by decide⟩

/-- C9 (amended): the per-range folder is
`<downloadBasePath>/<YYYY-MM-DD>_do_<YYYY-MM-DD>`, the invoice filename
is `faktura_<order number with slashes replaced by underscores>.pdf` —
a deterministic function of the order number — and writing the same path
twice overwrites the single entry rather than duplicating it. -/
theorem C9_layout_amended :
    (∀ base : String, folderPathFor base ⟨19785, 0⟩ ⟨19791, dayEndUsec⟩ =
        base ++ "/" ++ "2024-03-03_do_2024-03-09")
    ∧ (∀ folder : String, savePathFor folder "ZS/123/456/UR" =
        folder ++ "/" ++ "faktura_ZS_123_456_UR.pdf")
    ∧ (∀ (fs : Fs) (p : String) (b1 b2 : Bytes),
        fsWrite (fsWrite fs p b1) p b2 = fsWrite fs p b2)
    ∧ (∀ (fs : Fs) (p : String) (b : Bytes),
        (fsWrite fs p b).countP (fun e => e.1 == p) = 1) := by
  refine ⟨?_, ?_, ?_, ?_⟩
  · intro base
    have hfn : folderName ⟨19785, 0⟩ ⟨19791, dayEndUsec⟩ = "2024-03-03_do_2024-03-09" := by
      decide
    unfold folderPathFor
    rw [hfn]
  · intro folder
    have hfn : fileNameFor "ZS/123/456/UR" = "faktura_ZS_123_456_UR.pdf" := by decide
    unfold savePathFor
    rw [hfn]
  · intro fs p b1 b2
    simp [fsWrite, List.filter_filter]
  · intro fs p b
    simp [fsWrite, List.countP_cons, List.countP_filter]

theorem processOrder_processed_mono (st : RunState) (n folder : String) (env : OrderEnv)
    (s : String) (hs : s ∈ st.processedOrderNumbers) :
    s ∈ (processOrder st n folder env).1.processedOrderNumbers := by
  unfold processOrder
  split
  · exact hs
  · split
    · exact List.mem_cons_of_mem _ hs
    · split
      · exact List.mem_cons_of_mem _ hs
      · split
        · exact List.mem_cons_of_mem _ hs
        · exact List.mem_cons_of_mem _ hs

theorem processOrder_self_mem (st : RunState) (n folder : String) (env : OrderEnv) :
    n ∈ (processOrder st n folder env).1.processedOrderNumbers := by
  unfold processOrder
  split
  · assumption
  · split
    · exact List.mem_cons_self _ _
    · split
      · exact List.mem_cons_self _ _
      · split
        · exact List.mem_cons_self _ _
        · exact List.mem_cons_self _ _

theorem attemptsFor_eq_zero (folder n : String) :
    ∀ (orders : List (String × OrderEnv)) (st : RunState),
      n ∈ st.processedOrderNumbers → attemptsFor folder n st orders = 0 := by
  intro orders
  induction orders with
  | nil => intro st _; rfl
  | cons p rest ih =>
    intro st hn
    obtain ⟨m, env⟩ := p
    simp only [attemptsFor]
    rw [if_neg (by rintro ⟨hmn, hnot⟩; exact hnot (hmn ▸ hn))]
    rw [ih _ (processOrder_processed_mono st m folder env n hn)]

/-- C3: the dedup gate of `_process_order`.  (1) An order number already
in the run-scoped processed set is skipped entirely: the state is
returned unchanged and only the skip log is emitted.  (2) The order
number is in the processed set after any `_process_order` call on it —
it is added the moment an attempt starts, before any click can fail, so
success is irrelevant.  (3) Across any sequence of orders in a run, the
download logic runs at most once per order number. -/
theorem C3_at_most_once_per_order :
    (∀ (st : RunState) (n folder : String) (env : OrderEnv),
        n ∈ st.processedOrderNumbers →
        processOrder st n folder env = (st, [Act.dedupSkip n]))
    ∧ (∀ (st : RunState) (n folder : String) (env : OrderEnv),
        n ∈ (processOrder st n folder env).1.processedOrderNumbers)
    ∧ (∀ (folder n : String) (st : RunState) (orders : List (String × OrderEnv)),
        attemptsFor folder n st orders ≤ 1) := by
  refine ⟨?_, processOrder_self_mem, ?_⟩
  · intro st n folder env hn
    unfold processOrder
    rw [if_pos hn]
  · intro folder n st orders
    induction orders generalizing st with
    | nil => simp [attemptsFor]
    | cons p rest ih =>
      obtain ⟨m, env⟩ := p
      simp only [attemptsFor]
      by_cases hc : m = n ∧ ¬ m ∈ st.processedOrderNumbers
      · rw [if_pos hc]
        obtain ⟨hmn, _⟩ := hc
        subst hmn
        rw [attemptsFor_eq_zero folder m rest _ (processOrder_self_mem st m folder env)]
      · rw [if_neg hc]
        simpa using ih (processOrder st m folder env).1

theorem C3_at_most_once_per_order_witness :
    ("ZS/1/2/UR" ∈ runStateSeen.processedOrderNumbers)
    ∧ processOrder runStateSeen "ZS/1/2/UR" "faktury/w" orderEnvIdle =
        (runStateSeen, [Act.dedupSkip "ZS/1/2/UR"]) :=
  ⟨by decide,
   C3_at_most_once_per_order.1 runStateSeen "ZS/1/2/UR" "faktury/w" orderEnvIdle (by decide)⟩

/-- C1 (code evaluated at the failing input): an order with a single
document row whose primary download yields a verified invoice PDF
(`%PDF` signature, no privacy marker) ends with `downloadedInvoices = 1`
but `processedOrders = 0` — the `pobrano_dokumenty` flag is set only in
the two fallback branches, never in the primary verified branch, so the
claim's "at least one verified download increments `processedOrders`"
fails on the main success path. -/
theorem C1_verified_download_order_not_counted :
    (processOrder runState0 "ZS/100/1/UR" "faktury/2024-03-03_do_2024-03-09"
        orderEnvVerified).1.downloadedInvoices = 1
    ∧ (processOrder runState0 "ZS/100/1/UR" "faktury/2024-03-03_do_2024-03-09"
        orderEnvVerified).1.processedOrders = 0 := by
  refine ⟨by decide, by decide⟩

/-- C2 (counterexample): when the primary download is the privacy-policy
PDF, the new tab never opens and the API fetch returns bytes with no
`%PDF` signature, the fetched bytes are persisted at the invoice save
path and `downloadedInvoices` is incremented — a persisted file whose
first four bytes are not `%PDF` IS counted. -/
theorem C2_fallback_counts_unverified_file :
    fsLookup (processOrder runState0 "ZS/100/1/UR" "faktury/w1" orderEnvApiNonPdf).1.fs
        "faktury/w1/faktura_ZS_100_1_UR.pdf" = some bytesHtml
    ∧ startsWithPDF bytesHtml = false
    ∧ (processOrder runState0 "ZS/100/1/UR" "faktury/w1"
        orderEnvApiNonPdf).1.downloadedInvoices = 1 := by
  refine ⟨by decide, by decide, by decide⟩

/-- C2 (amended): signature verification gates the PRIMARY strategy only:
when the primary download's first bytes lack the `%PDF` signature, the
row contributes nothing to `downloadedInvoices`; files persisted by the
new-tab or API fallback strategies are counted without any signature
check (see the counterexample). -/
theorem C2_primary_signature_verification (saveP privacyP : String) (st : RowState)
    (env : RowEnv) (bts : Bytes)
    (hdl : env.download = some bts)
    (hnp : startsWithPDF (bts.take 1024) = false) :
    (processDocRow saveP privacyP st env).1.downloadedInvoices = st.downloadedInvoices := by
  unfold processDocRow
  cases ht : env.rowText with
  | none => rfl
  | some t =>
    by_cases hin : invoiceRowText t
    · rw [hdl]
      simp only [hin, if_true]
      cases hsf : env.saveFails
      · simp only [Bool.false_eq_true, if_false, hnp]
      · rfl
    · simp only [hin, Bool.false_eq_true, if_false]

theorem C2_primary_signature_verification_witness :
    (rowEnvNonPdf.download = some bytesHtml
      ∧ startsWithPDF (bytesHtml.take 1024) = false)
    ∧ (processDocRow "f/a.pdf" "f/a_polityka_prywatnosci.pdf" rowState0
        rowEnvNonPdf).1.downloadedInvoices = rowState0.downloadedInvoices :=
  ⟨⟨rfl, by decide⟩,
   C2_primary_signature_verification "f/a.pdf" "f/a_polityka_prywatnosci.pdf" rowState0
     rowEnvNonPdf bytesHtml rfl (by decide)⟩

theorem fsLookup_filterOut (fs : Fs) (p : String) :
    fsLookup (fs.filter (fun e => !(e.1 == p))) p = none := by
  induction fs with
  | nil => rfl
  | cons e rest ih =>
    by_cases hp : e.1 = p
    · rw [List.filter_cons_of_neg (by simp [hp])]
      exact ih
    · rw [List.filter_cons_of_pos (by simp [hp])]
      simp only [fsLookup] at ih ⊢
      rw [List.find?_cons_of_neg _ (by simp [hp])]
      exact ih

theorem fsLookup_fsRename_old (fs : Fs) (old new : String) (b : Bytes)
    (hlk : fsLookup fs old = some b) (hne : ¬ old = new) :
    fsLookup (fsRename fs old new) old = none := by
  unfold fsRename
  rw [hlk]
  rw [fsLookup_fsWrite_ne _ _ _ _ (fun h => hne h.symm)]
  exact fsLookup_filterOut fs old

theorem fsLookup_fsRename_new (fs : Fs) (old new : String) (b : Bytes)
    (hlk : fsLookup fs old = some b) :
    fsLookup (fsRename fs old new) new = some b := by
  unfold fsRename
  rw [hlk]
  exact fsLookup_fsWrite_self _ _ _

theorem tryNewTab_lookup_other (saveP q : String) (fs : Fs) (newTab : Option TabEnv)
    (h : ¬ saveP = q) :
    fsLookup (tryNewTab saveP fs newTab).1 q = fsLookup fs q := by
  unfold tryNewTab
  cases newTab with
  | none => rfl
  | some tab =>
    by_cases hu : urlLooksPdf tab.url
    · simp only [hu, if_true]
      cases tab.download2 with
      | none => rfl
      | some b2 => exact fsLookup_fsWrite_ne _ _ _ _ h
    · simp only [hu, Bool.false_eq_true, if_false]

theorem tryApiFetch_lookup_other (saveP q : String) (fs : Fs) (apiUrl : Option String)
    (apiData : Option Bytes) (h : ¬ saveP = q) :
    fsLookup (tryApiFetch saveP fs apiUrl apiData).1 q = fsLookup fs q := by
  unfold tryApiFetch
  split
  · cases apiUrl with
    | none => rfl
    | some u =>
      cases apiData with
      | none => rfl
      | some pb => exact fsLookup_fsWrite_ne _ _ _ _ h
  · rfl

theorem tryNewTab_tried (saveP : String) (fs : Fs) (newTab : Option TabEnv) :
    Act.triedNewTab ∈ (tryNewTab saveP fs newTab).2.2.2 := by
  unfold tryNewTab
  cases newTab with
  | none => simp
  | some tab =>
    by_cases hu : urlLooksPdf tab.url
    · simp only [hu, if_true]
      cases tab.download2 <;> simp
    · simp [hu]

theorem tryNewTab_of_not_yields (saveP : String) (fs : Fs) (env : RowEnv)
    (h : tabYields env = false) :
    tryNewTab saveP fs env.newTab = (fs, 0, false, [Act.triedNewTab]) := by
  unfold tabYields at h
  unfold tryNewTab
  cases htv : env.newTab with
  | none => rfl
  | some tab =>
    rw [htv] at h
    by_cases hu : urlLooksPdf tab.url
    · simp only [hu, if_true, Bool.true_and] at h ⊢
      cases hd : tab.download2 with
      | none => rfl
      | some b2 =>
        rw [hd] at h
        simp at h
    · simp [hu]

theorem tryApiFetch_tried (saveP : String) (fs : Fs) (apiUrl : Option String)
    (apiData : Option Bytes) (hgate : fsExists fs saveP = false) :
    Act.triedApi ∈ (tryApiFetch saveP fs apiUrl apiData).2.2.2 := by
  unfold tryApiFetch
  rw [hgate]
  simp only [Bool.not_false, Bool.true_or, if_true]
  cases apiUrl with
  | none => simp
  | some u => cases apiData <;> simp

theorem tryApiFetch_noData (saveP : String) (fs : Fs) (apiUrl : Option String)
    (hgate : fsExists fs saveP = false) :
    tryApiFetch saveP fs apiUrl none = (fs, 0, false, [Act.triedApi]) := by
  unfold tryApiFetch
  rw [hgate]
  simp only [Bool.not_false, Bool.true_or, if_true]
  cases apiUrl <;> rfl

/-- C7: a primary download that carries the `%PDF` signature but whose
decoded text contains the privacy-policy marker is renamed to the
`_polityka_prywatnosci`-suffixed path (keeping its content), it is never
itself counted in `downloadedInvoices` — if every fallback fails the
counter is unchanged — and the fallback chain is attempted: the new-tab
strategy always, and the API strategy whenever the new tab did not
persist a file.  (In `_process_order`, `privacyP` is derived from the
`.pdf`-suffixed `saveP`, so the two paths differ.) -/
theorem C7_privacy_misfire_handling (saveP privacyP : String) (st : RowState) (env : RowEnv)
    (t : String) (bts : Bytes)
    (hne : ¬ saveP = privacyP)
    (ht : env.rowText = some t)
    (hin : invoiceRowText t = true)
    (hdl : env.download = some bts)
    (hsf : env.saveFails = false)
    (hpdf : startsWithPDF (bts.take 1024) = true)
    (hpm : hasPrivacyMarker (bts.take 1024) = true)
    (hfc : env.forceClickRaises = false) :
    Act.renamedPrivacy saveP privacyP ∈ (processDocRow saveP privacyP st env).2
    ∧ fsLookup (processDocRow saveP privacyP st env).1.fs privacyP = some bts
    ∧ Act.triedNewTab ∈ (processDocRow saveP privacyP st env).2
    ∧ (tabYields env = false → Act.triedApi ∈ (processDocRow saveP privacyP st env).2)
    ∧ (tabYields env = false → env.apiData = none →
        (processDocRow saveP privacyP st env).1.downloadedInvoices = st.downloadedInvoices) := by
  have hshape : processDocRow saveP privacyP st env =
      ({ fs := (tryApiFetch saveP
                  (tryNewTab saveP (fsRename (fsWrite st.fs saveP bts) saveP privacyP)
                    env.newTab).1 env.apiUrl env.apiData).1,
         downloadedInvoices := st.downloadedInvoices
           + (tryNewTab saveP (fsRename (fsWrite st.fs saveP bts) saveP privacyP)
                env.newTab).2.1
           + (tryApiFetch saveP
                (tryNewTab saveP (fsRename (fsWrite st.fs saveP bts) saveP privacyP)
                  env.newTab).1 env.apiUrl env.apiData).2.1,
         pobranoDokumenty := st.pobranoDokumenty
           || (tryNewTab saveP (fsRename (fsWrite st.fs saveP bts) saveP privacyP)
                env.newTab).2.2.1
           || (tryApiFetch saveP
                (tryNewTab saveP (fsRename (fsWrite st.fs saveP bts) saveP privacyP)
                  env.newTab).1 env.apiUrl env.apiData).2.2.1,
         docErrors := st.docErrors },
       [Act.savedPrimary saveP, Act.renamedPrivacy saveP privacyP]
         ++ (tryNewTab saveP (fsRename (fsWrite st.fs saveP bts) saveP privacyP)
              env.newTab).2.2.2
         ++ (tryApiFetch saveP
              (tryNewTab saveP (fsRename (fsWrite st.fs saveP bts) saveP privacyP)
                env.newTab).1 env.apiUrl env.apiData).2.2.2) := by
    unfold processDocRow
    rw [ht, hdl]
    simp only [hin, if_true, hsf, Bool.false_eq_true, if_false, hpdf, hpm, hfc]
  have hsaved : fsLookup (fsWrite st.fs saveP bts) saveP = some bts :=
    fsLookup_fsWrite_self _ _ _
  have hpriv : fsLookup (fsRename (fsWrite st.fs saveP bts) saveP privacyP) privacyP
      = some bts := fsLookup_fsRename_new _ _ _ _ hsaved
  have hgone : fsLookup (fsRename (fsWrite st.fs saveP bts) saveP privacyP) saveP
      = none := fsLookup_fsRename_old _ _ _ _ hsaved hne
  rw [hshape]
  refine ⟨?_, ?_, ?_, ?_, ?_⟩
  · simp
  · rw [tryApiFetch_lookup_other _ _ _ _ _ hne, tryNewTab_lookup_other _ _ _ _ hne]
    exact hpriv
  · simp only [List.mem_append, List.append_assoc]
    exact Or.inr (Or.inl (tryNewTab_tried _ _ _))
  · intro hy
    rw [tryNewTab_of_not_yields _ _ _ hy]
    simp only [List.mem_append, List.append_assoc]
    refine Or.inr (Or.inr ?_)
    exact tryApiFetch_tried _ _ _ _ (by simp [fsExists, hgone])
  · intro hy hapi
    rw [tryNewTab_of_not_yields _ _ _ hy, hapi]
    rw [tryApiFetch_noData _ _ _ (by simp [fsExists, hgone])]
    simp

theorem C7_privacy_misfire_handling_witness :
    (¬ "f/a.pdf" = "f/a_polityka_prywatnosci.pdf"
      ∧ rowEnvPrivacyAllFail.rowText = some "Faktura VAT 3/2024"
      ∧ invoiceRowText "Faktura VAT 3/2024" = true
      ∧ rowEnvPrivacyAllFail.download = some bytesPdfPrivacy
      ∧ startsWithPDF (bytesPdfPrivacy.take 1024) = true
      ∧ hasPrivacyMarker (bytesPdfPrivacy.take 1024) = true
      ∧ tabYields rowEnvPrivacyAllFail = false)
    ∧ fsLookup (processDocRow "f/a.pdf" "f/a_polityka_prywatnosci.pdf" rowState0
          rowEnvPrivacyAllFail).1.fs "f/a_polityka_prywatnosci.pdf" = some bytesPdfPrivacy
    ∧ (processDocRow "f/a.pdf" "f/a_polityka_prywatnosci.pdf" rowState0
        rowEnvPrivacyAllFail).1.downloadedInvoices = rowState0.downloadedInvoices :=
  ⟨⟨by decide, rfl, by decide, rfl, by decide, by decide, rfl⟩,
   (C7_privacy_misfire_handling "f/a.pdf" "f/a_polityka_prywatnosci.pdf" rowState0
      rowEnvPrivacyAllFail "Faktura VAT 3/2024" bytesPdfPrivacy (by decide) rfl (by decide)
      rfl rfl (by decide) (by decide) rfl).2.1,
   (C7_privacy_misfire_handling "f/a.pdf" "f/a_polityka_prywatnosci.pdf" rowState0
      rowEnvPrivacyAllFail "Faktura VAT 3/2024" bytesPdfPrivacy (by decide) rfl (by decide)
      rfl rfl (by decide) (by decide) rfl).2.2.2.2 rfl rfl⟩

theorem scanEntry_old (basePath : String) (cutoff : DT) (e : CleanEntry) (it : ManifestItem)
    (h : scanEntry basePath cutoff e = some it) :
    dtLt it.cmpDate cutoff = true := by
  unfold scanEntry at h
  repeat' split at h
  all_goals try cases h
  all_goals assumption

/-- C4: the Retention Cleaner (1) only ever deletes items whose compared
date — the folder end-date parsed from the name, or the file modification
time — is strictly before `now - keepWeeks` weeks, so a folder whose
end-date is within `keepWeeks` of now is never deleted; (2) deletes
nothing without the manifest being produced and non-empty, and every
deleted item appears in the manifest; (3) with interactive confirmation
enabled, deletes nothing unless the response is `t`/`tak`. -/
theorem C4_cleaner_safety (basePath : String) (keepWeeks : Nat) (confirm : Bool)
    (now : DT) (env : CleanEnv) :
    (∀ it, it ∈ (clean_old_invoices basePath keepWeeks confirm now env).2.2 →
        dtLt it.cmpDate ⟨now.day - 7 * (keepWeeks : Int), now.usec⟩ = true)
    ∧ ((clean_old_invoices basePath keepWeeks confirm now env).2.2 ≠ [] →
        (clean_old_invoices basePath keepWeeks confirm now env).2.1 ≠ []
        ∧ ∀ it, it ∈ (clean_old_invoices basePath keepWeeks confirm now env).2.2 →
            it ∈ (clean_old_invoices basePath keepWeeks confirm now env).2.1)
    ∧ (confirm = true → isYes env.userResponse = false →
        (clean_old_invoices basePath keepWeeks confirm now env).2.2 = []) := by
  by_cases hbp : env.basePathExists = true
  · simp only [clean_old_invoices, hbp, Bool.not_true, Bool.false_eq_true, if_false]
    by_cases hit : (env.entries.filterMap
        (scanEntry basePath ⟨now.day - 7 * (keepWeeks : Int), now.usec⟩)).isEmpty = true
    · simp only [hit, if_true]
      refine ⟨?_, ?_, ?_⟩
      · intro it hmem
        simp at hmem
      · intro hne
        simp at hne
      · intro _ _
        trivial
    · simp only [hit, Bool.false_eq_true, if_false]
      by_cases hcf : (confirm && !isYes env.userResponse) = true
      · simp only [hcf, if_true]
        refine ⟨?_, ?_, ?_⟩
        · intro it hmem
          simp at hmem
        · intro hne
          simp at hne
        · intro _ _
          trivial
      · have hcf2 : (confirm && !isYes env.userResponse) = false := by
          simpa using hcf
        simp only [hcf2, Bool.false_eq_true, if_false]
        refine ⟨?_, ?_, ?_⟩
        · intro it hmem
          obtain ⟨e, _, he⟩ := List.mem_filterMap.mp (List.mem_filter.mp hmem).1
          exact scanEntry_old _ _ _ _ he
        · intro hne
          constructor
          · intro h0
            exact hne (by rw [h0]; rfl)
          · intro it hmem
            exact (List.mem_filter.mp hmem).1
        · intro hc hy
          rw [hc, hy] at hcf2
          simp at hcf2
  · have hbp2 : env.basePathExists = false := by simpa using hbp
    simp only [clean_old_invoices, hbp2, Bool.not_false, if_true]
    refine ⟨?_, ?_, ?_⟩
    · intro it hmem
      simp at hmem
    · intro hne
      simp at hne
    · intro _ _
      trivial

theorem C4_cleaner_safety_witness :
    (clean_old_invoices "faktury" 12 true nowClean cleanEnvOld).2.2 ≠ []
    ∧ (clean_old_invoices "faktury" 12 true nowClean cleanEnvOld).2.1 ≠ [] :=
  ⟨by decide,
   ((C4_cleaner_safety "faktury" 12 true nowClean cleanEnvOld).2.1 (by decide)).1⟩

theorem setKey_keys (l : List (String × JVal)) (k : String) (v : JVal) :
    (setKey l k v).map Prod.fst = l.map Prod.fst := by
  induction l with
  | nil => rfl
  | cons p rest ih =>
    simp only [setKey, List.map_cons] at ih ⊢
    by_cases h : (p.1 == k) = true
    · rw [if_pos h]
      simpa using ih
    · rw [if_neg h]
      simpa using ih

theorem lookupKey_setKey_ne (l : List (String × JVal)) (k k' : String) (v : JVal)
    (h : ¬ k' = k) :
    lookupKey (setKey l k' v) k = lookupKey l k := by
  induction l with
  | nil => rfl
  | cons p rest ih =>
    simp only [setKey, lookupKey, List.map_cons] at ih ⊢
    by_cases hp : p.1 = k'
    · rw [if_pos (by simpa using hp)]
      rw [List.find?_cons_of_neg _ (by simp [hp, h]),
          List.find?_cons_of_neg _ (by simp [hp, h])]
      exact ih
    · rw [if_neg (by simpa using hp)]
      by_cases hk : p.1 = k
      · rw [List.find?_cons_of_pos _ (by simp [hk]), List.find?_cons_of_pos _ (by simp [hk])]
      · rw [List.find?_cons_of_neg _ (by simp [hk]), List.find?_cons_of_neg _ (by simp [hk])]
        exact ih

theorem lookup_none_of_not_keyIn (l : List (String × JVal)) (k : String)
    (h : keyIn k l = false) : lookupKey l k = none := by
  induction l with
  | nil => rfl
  | cons p rest ih =>
    simp only [keyIn, List.any_cons, Bool.or_eq_false_iff] at h
    simp only [lookupKey]
    rw [List.find?_cons_of_neg _ (by simp [h.1])]
    exact ih (by simpa [keyIn] using h.2)

theorem updateTop_keys (cfg : List (String × JVal)) (k : String) (v : JVal) :
    (updateTop cfg k v).map Prod.fst = cfg.map Prod.fst := by
  unfold updateTop
  by_cases h : keyIn k cfg = true
  · rw [if_pos h]
    split <;> exact setKey_keys _ _ _
  · rw [if_neg h]

theorem updateTop_lookup_ne (cfg : List (String × JVal)) (k k' : String) (v : JVal)
    (h : ¬ k' = k) :
    lookupKey (updateTop cfg k' v) k = lookupKey cfg k := by
  unfold updateTop
  by_cases hk : keyIn k' cfg = true
  · rw [if_pos hk]
    split <;> exact lookupKey_setKey_ne _ _ _ _ h
  · rw [if_neg hk]

theorem updateConfig_keys :
    ∀ (custom cfg : List (String × JVal)),
      (updateConfig cfg custom).map Prod.fst = cfg.map Prod.fst := by
  intro custom
  induction custom with
  | nil => intro cfg; rfl
  | cons p rest ih =>
    intro cfg
    simp only [updateConfig, List.foldl_cons] at ih ⊢
    rw [ih (updateTop cfg p.1 p.2), updateTop_keys]

theorem updateConfig_lookup_frame :
    ∀ (custom cfg : List (String × JVal)) (k : String), keyIn k custom = false →
      lookupKey (updateConfig cfg custom) k = lookupKey cfg k := by
  intro custom
  induction custom with
  | nil => intro cfg k _; rfl
  | cons p rest ih =>
    intro cfg k h
    simp only [keyIn, List.any_cons, Bool.or_eq_false_iff] at h
    simp only [updateConfig, List.foldl_cons] at ih ⊢
    rw [ih (updateTop cfg p.1 p.2) k (by simpa [keyIn] using h.2),
        updateTop_lookup_ne _ _ _ _ (by simpa using h.1)]

theorem mergeSub_keys :
    ∀ (d' d : List (String × JVal)),
      (mergeSub d d').map Prod.fst = d.map Prod.fst := by
  intro d'
  induction d' with
  | nil => intro d; rfl
  | cons p rest ih =>
    intro d
    simp only [mergeSub, List.foldl_cons] at ih ⊢
    by_cases h : keyIn p.1 d = true
    · rw [if_pos h, ih, setKey_keys]
    · rw [if_neg h, ih]

theorem mergeSub_lookup_frame :
    ∀ (d' d : List (String × JVal)) (sk : String), keyIn sk d' = false →
      lookupKey (mergeSub d d') sk = lookupKey d sk := by
  intro d'
  induction d' with
  | nil => intro d sk _; rfl
  | cons p rest ih =>
    intro d sk h
    simp only [keyIn, List.any_cons, Bool.or_eq_false_iff] at h
    simp only [mergeSub, List.foldl_cons] at ih ⊢
    rw [ih _ sk (by simpa [keyIn] using h.2)]
    by_cases hk : keyIn p.1 d = true
    · rw [if_pos hk]
      exact lookupKey_setKey_ne _ _ _ _ (by simpa using h.1)
    · rw [if_neg hk]

theorem keyIn_congr_keys (l l' : List (String × JVal)) (k : String)
    (h : l.map Prod.fst = l'.map Prod.fst) : keyIn k l = keyIn k l' := by
  have h1 : ∀ m : List (String × JVal),
      keyIn k m = (m.map Prod.fst).any (fun s => s == k) := by
    intro m
    induction m with
    | nil => rfl
    | cons p rest ih =>
      simp only [keyIn, List.any_cons, List.map_cons] at ih ⊢
      rw [ih]
  rw [h1 l, h1 l', h]

/-- C10: `_update_config` (1) preserves the set (and order) of top-level
keys; (2) leaves every top-level key not mentioned in the custom dict
unchanged; (3) ignores unknown top-level keys entirely; for a nested
dict-to-dict update, the merge (4) preserves the nested keys, (5) leaves
sub-keys not mentioned in the custom nested dict unchanged, and (6) never
creates a sub-key that was not already present. -/
theorem C10_config_merge_frame :
    (∀ cfg custom : List (String × JVal),
        (updateConfig cfg custom).map Prod.fst = cfg.map Prod.fst)
    ∧ (∀ (cfg custom : List (String × JVal)) (k : String), keyIn k custom = false →
        lookupKey (updateConfig cfg custom) k = lookupKey cfg k)
    ∧ (∀ (cfg : List (String × JVal)) (k : String) (v : JVal), keyIn k cfg = false →
        updateTop cfg k v = cfg)
    ∧ (∀ d d' : List (String × JVal),
        (mergeSub d d').map Prod.fst = d.map Prod.fst)
    ∧ (∀ (d d' : List (String × JVal)) (sk : String), keyIn sk d' = false →
        lookupKey (mergeSub d d') sk = lookupKey d sk)
    ∧ (∀ (d d' : List (String × JVal)) (sk : String), keyIn sk d = false →
        lookupKey (mergeSub d d') sk = none) := by
  refine ⟨fun cfg custom => updateConfig_keys custom cfg,
          fun cfg custom k h => updateConfig_lookup_frame custom cfg k h,
          ?_,
          fun d d' => mergeSub_keys d' d,
          fun d d' sk h => mergeSub_lookup_frame d' d sk h,
          ?_⟩
  · intro cfg k v h
    unfold updateTop
    rw [if_neg (by simp [h])]
  · intro d d' sk h
    refine lookup_none_of_not_keyIn _ _ ?_
    rw [keyIn_congr_keys _ d sk (mergeSub_keys d' d)]
    exact h

theorem C10_config_merge_frame_witness :
    (keyIn "downloadBasePath" customCfgJ = false
      ∧ lookupKey (updateConfig defaultConfigJ customCfgJ) "downloadBasePath"
          = lookupKey defaultConfigJ "downloadBasePath")
    ∧ (updateConfig defaultConfigJ customCfgJ).map Prod.fst = defaultConfigJ.map Prod.fst :=
  ⟨⟨rfl, C10_config_merge_frame.2.1 defaultConfigJ customCfgJ "downloadBasePath" rfl⟩,
   C10_config_merge_frame.1 defaultConfigJ customCfgJ⟩
